import Mathlib

/-!
Verification of the unified LLM invocation layer
(`src/packages/core/src/services/ai/index.ts` and its error translator
`handleAICallAPIError`), as a shallow embedding.

JavaScript strings that the debug logger slices character by character are
modelled as `List Char`; configuration objects are association lists of
string keys to `JSVal` values with JavaScript object-literal override
semantics; collaborators that live outside the orchestrator file
(`applyAllRules`, `createProvider`, `getLanguageModel`, `buildTools`, the
injected `streamText` transport) are parameters of the orchestrator, each
allowed to return its documented typed result or to throw.
-/

namespace LatitudeAI

/-- JavaScript string, modelled as its character sequence. -/
abbrev JStr := List Char

/-- The `image` field of an image content part: a string (URL, data URI or
raw string data), a `Buffer`, or a `Uint8Array` (the latter two kept
abstract, with their byte length). -/
inductive ImageData where
  | strData (s : JStr)
  | buffer (len : Nat)
  | uint8 (len : Nat)
deriving DecidableEq, Repr

/-- One content part of a message: text, image, or file (binary data with a
mime type); `other` covers part types the debug logger does not inspect. -/
inductive ContentPart where
  | text (t : JStr)
  | image (data : ImageData)
  | file (dataLen : Nat) (mimeType : JStr)
  | other (tag : JStr)
deriving DecidableEq, Repr

/-- A chat message: role plus ordered content parts. -/
structure Message where
  role : String
  content : List ContentPart
deriving DecidableEq, Repr

/-- An output JSON schema, kept opaque (the orchestrator never inspects it,
it only tests its presence and forwards it to `Output.object`). -/
structure JSONSchema where
  id : Nat
deriving DecidableEq, Repr

/-- The `output` flag: `object`, `array` or `no-schema`; the TypeScript
`undefined` case is `Option.none` at use sites. -/
inductive ObjectOutput where
  | object
  | array
  | noSchema
deriving DecidableEq, Repr

/-- A JavaScript value as far as the orchestrator distinguishes them:
`undef` is `undefined`; `ext` is an opaque runtime object (resolved
language model, built tool set, stream accessors...); the remaining
constructors are the specific values the dispatch call builds. -/
inductive JSVal where
  | undef
  | str (s : String)
  | num (n : Nat)
  | ext (id : Nat)
  | messages (ms : List Message)
  | telemetry (isEnabled : Bool)
  | transform
  | outputObject (schema : JSONSchema)
  | abortSig
deriving DecidableEq, Repr

/-- A JavaScript object with string keys, as an association list (earliest
binding wins on read; `objSet` implements literal-override semantics). -/
abbrev JSObj := List (String × JSVal)

/-- Property read: `o[k]`, yielding `undefined` when the key is absent. -/
def jsGet : JSObj → String → JSVal
  | [], _ => JSVal.undef
  | (k, v) :: rest, key => if k = key then v else jsGet rest key

/-- Property override, as in an object literal `{...o, k: v}`: any earlier
binding of `k` is dropped and the new one appended. -/
def objSet (o : JSObj) (k : String) (v : JSVal) : JSObj :=
  o.filter (fun p => p.1 ≠ k) ++ [(k, v)]

/-- The error codes that the result type of the orchestrator ranges over
(`AIProviderConfigError`, `AIRunError`, `Unknown`). -/
inductive RunErrorCodes where
  | aiProviderConfigError
  | aiRunError
  | unknown
deriving DecidableEq, Repr

/-- Model of `ChainError`: a stable code plus a human-readable message. -/
structure ChainError where
  code : RunErrorCodes
  message : String
deriving DecidableEq, Repr

/-- Model of `TypedResult`: success carries a value, failure carries a `ChainError`. -/
inductive TypedResult (α : Type) where
  | ok (value : α)
  | error (err : ChainError)
deriving DecidableEq, Repr

/-- A thrown JavaScript value, by the shape `handleAICallAPIError` tests:
an AI-SDK `APICallError` (message + response body), a generic `Error`
(message), or any other value (kept as its string interpolation). -/
inductive Thrown where
  | apiCallError (message : String) (responseBody : String)
  | error (message : String)
  | other (stringForm : String)
deriving DecidableEq, Repr

/-- The `ChainError` built by `handleAICallAPIError`
(`src/packages/core/src/services/ai/handleError.ts`). -/
def handleAICallAPIErrorChain (e : Thrown) : ChainError :=
  { code := RunErrorCodes.aiRunError
    message :=
      match e with
      | Thrown.apiCallError m b => "Error: " ++ m ++ " and response body: " ++ b
      | Thrown.error m => "Unknown error: " ++ m
      | Thrown.other s => "Unknown error: " ++ s }

/-- Wrapper `handleAICallAPIError`, returning `Result.error(new ChainError(...))`. -/
def handleAICallAPIError {α : Type} (e : Thrown) : TypedResult α :=
  TypedResult.error (handleAICallAPIErrorChain e)

/-! ### The debug-logging snapshot (gated by `DEBUG_AI`)

Lines 112-146 of `index.ts` build a size-reduced JSON snapshot of the
outbound messages; lines 198-232 repeat the same logic on the
rule-transformed messages. -/

/-- Model of `s.substring(0, 100)` plus an ellipsis marker when `s.length > 100`. -/
def jsTruncate100 (t : JStr) : JStr :=
  t.take 100 ++ (if t.length > 100 then ['.', '.', '.'] else [])

/-- Model of `s.startsWith(p)`. -/
def jsStartsWith (s p : JStr) : Bool :=
  decide (s.take p.length = p)

/-- The logged representation of one content part. -/
inductive LoggedPart where
  | text (preview : JStr)
  | image (present : Bool) (isURL : Bool) (size : Nat) (preview : JStr)
  | file (present : Bool) (mimeType : JStr) (size : Nat)
  | other (tag : JStr)
deriving DecidableEq, Repr

/-- The per-part debug snapshot: text parts get `substring(0,100)` plus an
ellipsis marker when longer than 100; image string data is logged in full
when it starts with `"http"` or `"data:"` and truncated to 100 plus an ellipsis
otherwise; binary image data logs the fixed string `"Binary data"`; file
parts log presence, mime type and size only. -/
def logContentPart (c : ContentPart) : LoggedPart :=
  match c with
  | ContentPart.text t =>
      LoggedPart.text (jsTruncate100 t)
  | ContentPart.image (ImageData.strData s) =>
      let isURL := jsStartsWith s ('h' :: 't' :: 't' :: 'p' :: []) ||
        jsStartsWith s ('d' :: 'a' :: 't' :: 'a' :: ':' :: [])
      LoggedPart.image (!s.isEmpty) isURL s.length
        (if isURL then s else s.take 100 ++ ['.', '.', '.'])
  | ContentPart.image (ImageData.buffer n) =>
      LoggedPart.image true false n
        ('B' :: 'i' :: 'n' :: 'a' :: 'r' :: 'y' :: ' ' :: 'd' :: 'a' :: 't' :: 'a' :: [])
  | ContentPart.image (ImageData.uint8 n) =>
      LoggedPart.image true false n
        ('B' :: 'i' :: 'n' :: 'a' :: 'r' :: 'y' :: ' ' :: 'd' :: 'a' :: 't' :: 'a' :: [])
  | ContentPart.file len m =>
      LoggedPart.file true m len
  | ContentPart.other tag =>
      LoggedPart.other tag

/-- Size of the variable-length payload a logged part carries (the strings
that grow with the input; the fixed booleans and numbers are elided). -/
def loggedPartSize : LoggedPart → Nat
  | LoggedPart.text p => p.length
  | LoggedPart.image _ _ _ p => p.length
  | LoggedPart.file _ m _ => m.length
  | LoggedPart.other t => t.length

/-- The logged representation of one message. -/
structure LoggedMessage where
  role : String
  content : List LoggedPart
deriving DecidableEq, Repr

/-- Snapshot one message for the debug log. -/
def logMessage (m : Message) : LoggedMessage :=
  { role := m.role, content := m.content.map logContentPart }

/-- One debug-channel emission. -/
inductive LogEntry where
  | requestInfo (providerKind : String) (model : JSVal) (msgCount : Nat)
      (msgs : List LoggedMessage) (config : JSObj)
  | convertedInfo (msgs : List LoggedMessage)
  | errorLog (e : Thrown)
deriving Repr

/-! ### The invocation orchestrator (`ai`, `index.ts` lines 68-284) -/

/-- Model of `ProviderApiKey` as the orchestrator reads it: provider kind, token,
optional custom endpoint URL. -/
structure ProviderApiKey where
  provider : String
  token : String
  url : Option String
deriving DecidableEq, Repr

/-- One rule violation, as consumed by the orchestrator
(`rule.ruleMessage`). -/
structure RuleViolation where
  ruleMessage : String
deriving DecidableEq, Repr

/-- The value returned by `applyAllRules`: the violation list plus the
possibly transformed config and messages. -/
structure AppliedRules where
  rules : List RuleViolation
  messages : List Message
  config : JSObj
deriving Repr

/-- The stream object returned by `streamText`, by the accessors the
orchestrator re-exports (each kept opaque as a `JSVal`). -/
structure StreamTextResult where
  fullStream : JSVal
  text : JSVal
  reasoning : JSVal
  usage : JSVal
  toolCalls : JSVal
  providerMetadata : JSVal
  sources : JSVal
  finishReason : JSVal
  response : JSVal
deriving DecidableEq, Repr

/-- The collaborators `ai` composes; each may return its documented value
or throw. `applyAllRules`, `createProvider`, `getLanguageModel` and
`buildTools` live in sibling modules of the repository; `streamText` is
the (possibly overridden) AI-SDK transport. The adapter handle is opaque
(`Nat`). -/
structure AIDeps where
  applyAllRules : String → List Message → JSObj → Except Thrown AppliedRules
  createProvider : List Message → ProviderApiKey → String → Option String → JSObj →
    Except Thrown (TypedResult Nat)
  getLanguageModel : Nat → ProviderApiKey → JSObj → JSVal → Except Thrown JSVal
  buildTools : JSVal → Except Thrown (TypedResult JSVal)
  streamText : JSObj → Except Thrown StreamTextResult

/-- The caller-supplied input of `ai` (the telemetry context is opaque to
every step we model and is elided; the `DEBUG_AI` toggle is a separate
parameter of `ai`). -/
structure AIInput where
  provider : ProviderApiKey
  config : JSObj
  messages : List Message
  prompt : Option String
  schema : Option JSONSchema
  output : Option ObjectOutput
  hasAbortSignal : Bool

/-- A collaborator invocation, recorded in execution order; the dispatch
step records the configuration object it was handed. -/
inductive Step where
  | applyAllRulesStep
  | createProviderStep
  | getLanguageModelStep
  | buildToolsStep
  | streamTextStep (arg : JSObj)
deriving DecidableEq, Repr

/-- Model of `const useSchema = schema && !!output && output !== "no-schema"` (the
source writes the flag value as a single-quoted string). -/
def useSchemaFlag (schema : Option JSONSchema) (output : Option ObjectOutput) : Bool :=
  schema.isSome && output.isSome && decide (output ≠ some ObjectOutput.noSchema)

/-- Value of the `experimental_output` key: `Output.object` of the schema when `useSchema` holds, else `undefined`. -/
def experimentalOutputVal (schema : Option JSONSchema) (u : Bool) : JSVal :=
  if u then
    match schema with
    | some s => JSVal.outputObject s
    | none => JSVal.undef
  else JSVal.undef

/-- The options object handed to `streamText` (lines 236-249):
the spread of `omit(config, ["schema"])` overridden by `model, prompt, messages, tools, abortSignal,
providerOptions: config.providerOptions, experimental_telemetry:
{isEnabled: false}, experimental_transform: smoothStream(),
experimental_output}`. -/
def streamTextArg (config : JSObj) (languageModel : JSVal) (prompt : Option String)
    (messages : List Message) (toolSet : JSVal) (hasAbortSignal : Bool)
    (u : Bool) (schema : Option JSONSchema) : JSObj :=
  objSet (objSet (objSet (objSet (objSet (objSet (objSet (objSet (objSet
    (config.filter (fun p => p.1 ≠ "schema"))
    "model" languageModel)
    "prompt" (match prompt with | some p => JSVal.str p | none => JSVal.undef))
    "messages" (JSVal.messages messages))
    "tools" toolSet)
    "abortSignal" (if hasAbortSignal then JSVal.abortSig else JSVal.undef))
    "providerOptions" (jsGet config "providerOptions"))
    "experimental_telemetry" (JSVal.telemetry false))
    "experimental_transform" JSVal.transform)
    "experimental_output" (experimentalOutputVal schema u)

/-- The success payload (lines 264-276), an object literal with exactly
these eleven fields in source order. -/
def successObj (resultType : String) (providerName : String) (r : StreamTextResult) : JSObj :=
  [("type", JSVal.str resultType),
   ("providerName", JSVal.str providerName),
   ("fullStream", r.fullStream),
   ("text", r.text),
   ("reasoning", r.reasoning),
   ("usage", r.usage),
   ("toolCalls", r.toolCalls),
   ("providerMetadata", r.providerMetadata),
   ("sources", r.sources),
   ("finishReason", r.finishReason),
   ("response", r.response)]

/-- The aggregated rule-violation error (lines 157-164). -/
def ruleViolationError (rules : List RuleViolation) : ChainError :=
  { code := RunErrorCodes.aiRunError
    message := "There are rule violations:\n" ++
      String.intercalate "\n" (rules.map (fun r => "- " ++ r.ruleMessage)) }

/-- The `=== AI Request Debug Info ===` block (lines 107-148), emitted only
when the debug flag is set, before validation runs. -/
def requestLog (inp : AIInput) (debugAI : Bool) : List LogEntry :=
  if debugAI then
    [LogEntry.requestInfo inp.provider.provider (jsGet inp.config "model")
      inp.messages.length (inp.messages.map logMessage) inp.config]
  else []

/-- The `=== Converted Messages for Provider ===` block (lines 196-234),
emitted only when the debug flag is set, on the rule-transformed
messages. -/
def convertedLog (rule : AppliedRules) (debugAI : Bool) : List LogEntry :=
  if debugAI then [LogEntry.convertedInfo (rule.messages.map logMessage)] else []

/-- Result of the `try` block of `ai`: the outcome of the body (`Except.error`
is an uncaught exception escaping the block), the collaborator trace, and
the debug log so far. -/
structure TryOutcome where
  body : Except Thrown (TypedResult JSObj)
  trace : List Step
  logs : List LogEntry

/-- The `try` block of `ai` (lines 106-276): debug-log the request, run the
Rule Engine and return the aggregated violation error when violations
exist, build the provider adapter (propagating its typed error), resolve
the language model, build the tools (propagating the typed error), decide
the result mode, debug-log the converted messages, dispatch `streamText`,
and return the success payload. -/
def aiTry (deps : AIDeps) (inp : AIInput) (debugAI : Bool) : TryOutcome :=
  match deps.applyAllRules inp.provider.provider inp.messages inp.config with
  | Except.error e =>
      { body := Except.error e
        trace := [Step.applyAllRulesStep]
        logs := requestLog inp debugAI }
  | Except.ok rule =>
    if rule.rules.length > 0 then
      { body := Except.ok (TypedResult.error (ruleViolationError rule.rules))
        trace := [Step.applyAllRulesStep]
        logs := requestLog inp debugAI }
    else
      match deps.createProvider rule.messages inp.provider inp.provider.token
          inp.provider.url rule.config with
      | Except.error e =>
          { body := Except.error e
            trace := [Step.applyAllRulesStep, Step.createProviderStep]
            logs := requestLog inp debugAI }
      | Except.ok (TypedResult.error err) =>
          { body := Except.ok (TypedResult.error err)
            trace := [Step.applyAllRulesStep, Step.createProviderStep]
            logs := requestLog inp debugAI }
      | Except.ok (TypedResult.ok adapter) =>
        match deps.getLanguageModel adapter inp.provider rule.config
            (jsGet rule.config "model") with
        | Except.error e =>
            { body := Except.error e
              trace := [Step.applyAllRulesStep, Step.createProviderStep,
                Step.getLanguageModelStep]
              logs := requestLog inp debugAI }
        | Except.ok languageModel =>
          match deps.buildTools (jsGet rule.config "tools") with
          | Except.error e =>
              { body := Except.error e
                trace := [Step.applyAllRulesStep, Step.createProviderStep,
                  Step.getLanguageModelStep, Step.buildToolsStep]
                logs := requestLog inp debugAI }
          | Except.ok (TypedResult.error err) =>
              { body := Except.ok (TypedResult.error err)
                trace := [Step.applyAllRulesStep, Step.createProviderStep,
                  Step.getLanguageModelStep, Step.buildToolsStep]
                logs := requestLog inp debugAI }
          | Except.ok (TypedResult.ok toolSet) =>
            match deps.streamText (streamTextArg rule.config languageModel inp.prompt
                rule.messages toolSet inp.hasAbortSignal
                (useSchemaFlag inp.schema inp.output) inp.schema) with
            | Except.error e =>
                { body := Except.error e
                  trace := [Step.applyAllRulesStep, Step.createProviderStep,
                    Step.getLanguageModelStep, Step.buildToolsStep,
                    Step.streamTextStep (streamTextArg rule.config languageModel
                      inp.prompt rule.messages toolSet inp.hasAbortSignal
                      (useSchemaFlag inp.schema inp.output) inp.schema)]
                  logs := requestLog inp debugAI ++ convertedLog rule debugAI }
            | Except.ok result =>
                { body := Except.ok (TypedResult.ok (successObj
                    (if useSchemaFlag inp.schema inp.output then "object" else "text")
                    inp.provider.provider result))
                  trace := [Step.applyAllRulesStep, Step.createProviderStep,
                    Step.getLanguageModelStep, Step.buildToolsStep,
                    Step.streamTextStep (streamTextArg rule.config languageModel
                      inp.prompt rule.messages toolSet inp.hasAbortSignal
                      (useSchemaFlag inp.schema inp.output) inp.schema)]
                  logs := requestLog inp debugAI ++ convertedLog rule debugAI }

/-- The overall returned state of one `ai` run: the typed result, the
collaborator trace, and the debug log. -/
structure AIOutcome where
  result : TypedResult JSObj
  trace : List Step
  logs : List LogEntry

/-- Function `ai` (lines 68-284): the `try` block wrapped in the single top-level
`catch`, which debug-logs the thrown value and hands it to
`handleAICallAPIError`. -/
def ai (deps : AIDeps) (inp : AIInput) (debugAI : Bool) : AIOutcome :=
  match (aiTry deps inp debugAI).body with
  | Except.error e =>
      { result := handleAICallAPIError e
        trace := (aiTry deps inp debugAI).trace
        logs := (aiTry deps inp debugAI).logs ++
          (if debugAI then [LogEntry.errorLog e] else []) }
  | Except.ok r =>
      { result := r
        trace := (aiTry deps inp debugAI).trace
        logs := (aiTry deps inp debugAI).logs }

/-! ### Concrete instances used to evaluate the claims -/

/-- A concrete stream object, with opaque accessor values. -/
def sampleStream : StreamTextResult :=
  { fullStream := JSVal.ext 1, text := JSVal.ext 2, reasoning := JSVal.ext 3,
    usage := JSVal.ext 4, toolCalls := JSVal.ext 5, providerMetadata := JSVal.ext 6,
    sources := JSVal.ext 9, finishReason := JSVal.ext 10, response := JSVal.ext 11 }

/-- A concrete credential. -/
def sampleProviderKey : ProviderApiKey :=
  { provider := "openai", token := "tok", url := none }

/-- A concrete configuration with a model, a sampling field, a schema key,
tools and provider options. -/
def sampleConfig : JSObj :=
  [("model", JSVal.str "gpt-4"), ("temperature", JSVal.num 1),
   ("schema", JSVal.ext 42), ("tools", JSVal.ext 5),
   ("providerOptions", JSVal.ext 6)]

/-- Collaborators on which every stage succeeds: no violations, adapter `0`,
language model `ext 7`, tool set `ext 8`, and a successful dispatch. -/
def happyDeps : AIDeps :=
  { applyAllRules := fun _ ms cfg => Except.ok { rules := [], messages := ms, config := cfg }
    createProvider := fun _ _ _ _ _ => Except.ok (TypedResult.ok 0)
    getLanguageModel := fun _ _ _ _ => Except.ok (JSVal.ext 7)
    buildTools := fun _ => Except.ok (TypedResult.ok (JSVal.ext 8))
    streamText := fun _ => Except.ok sampleStream }

/-- Like `happyDeps`, but the Rule Engine reports one violation `"boom"`. -/
def violDeps : AIDeps :=
  { happyDeps with
    applyAllRules := fun _ ms cfg =>
      Except.ok { rules := [{ ruleMessage := "boom" }], messages := ms, config := cfg } }

/-- Like `happyDeps`, but the Tool Builder returns a typed error. -/
def toolFailDeps : AIDeps :=
  { happyDeps with
    buildTools := fun _ => Except.ok (TypedResult.error
      { code := RunErrorCodes.aiRunError, message := "bad tool" }) }

/-- Like `happyDeps`, but the dispatch throws an `APICallError`. -/
def throwDeps : AIDeps :=
  { happyDeps with
    streamText := fun _ => Except.error (Thrown.apiCallError "M" "B") }

/-- A concrete input: schema present, output mode `object`. -/
def sampleInput : AIInput :=
  { provider := sampleProviderKey, config := sampleConfig, messages := [],
    prompt := none, schema := some { id := 1 }, output := some ObjectOutput.object,
    hasAbortSignal := false }

/-- The keys the dispatch call sets explicitly on top of the config spread
(plus `"schema"`, which the spread omits). -/
def overriddenKeys : List String :=
  ["schema", "model", "prompt", "messages", "tools", "abortSignal",
   "providerOptions", "experimental_telemetry", "experimental_transform",
   "experimental_output"]

/-! ### Helper lemmas -/

theorem jsGet_objSet_self (o : JSObj) (k : String) (v : JSVal) :
    jsGet (objSet o k v) k = v := by
  induction o with
  | nil => simp [objSet, jsGet]
  | cons p t ih =>
    rcases p with ⟨a, b⟩
    by_cases hp : a = k
    · have hstep : objSet ((a, b) :: t) k v = objSet t k v := by
        simp [objSet, List.filter_cons, hp]
      rw [hstep]; exact ih
    · have hstep : objSet ((a, b) :: t) k v = (a, b) :: objSet t k v := by
        simp [objSet, List.filter_cons, hp]
      rw [hstep]
      simp only [jsGet]
      rw [if_neg hp]
      exact ih

theorem jsGet_objSet_other (o : JSObj) (k k' : String) (v : JSVal) (h : k' ≠ k) :
    jsGet (objSet o k v) k' = jsGet o k' := by
  induction o with
  | nil =>
    simp only [objSet, List.filter_nil, List.nil_append, jsGet]
    rw [if_neg (fun hh => h hh.symm)]
  | cons p t ih =>
    rcases p with ⟨a, b⟩
    by_cases hp : a = k
    · have haz : a ≠ k' := by rw [hp]; exact fun hh => h hh.symm
      have hstep : objSet ((a, b) :: t) k v = objSet t k v := by
        simp [objSet, List.filter_cons, hp]
      rw [hstep, ih]
      simp only [jsGet]
      rw [if_neg haz]
    · have hstep : objSet ((a, b) :: t) k v = (a, b) :: objSet t k v := by
        simp [objSet, List.filter_cons, hp]
      rw [hstep]
      simp only [jsGet]
      by_cases hq : a = k'
      · rw [if_pos hq, if_pos hq]
      · rw [if_neg hq, if_neg hq]; exact ih

theorem jsGet_filter_schema (o : JSObj) (k : String) (h : k ≠ "schema") :
    jsGet (o.filter (fun p => p.1 ≠ "schema")) k = jsGet o k := by
  induction o with
  | nil => rfl
  | cons p t ih =>
    rcases p with ⟨a, b⟩
    by_cases hp : a = "schema"
    · have haz : a ≠ k := by rw [hp]; exact fun hh => h hh.symm
      have hstep : ((a, b) :: t).filter (fun p => p.1 ≠ "schema") =
          t.filter (fun p => p.1 ≠ "schema") := by
        simp [List.filter_cons, hp]
      rw [hstep, ih]
      simp only [jsGet]
      rw [if_neg haz]
    · have hstep : ((a, b) :: t).filter (fun p => p.1 ≠ "schema") =
          (a, b) :: t.filter (fun p => p.1 ≠ "schema") := by
        simp [List.filter_cons, hp]
      rw [hstep]
      simp only [jsGet]
      by_cases hq : a = k
      · rw [if_pos hq, if_pos hq]
      · rw [if_neg hq, if_neg hq]; exact ih

theorem schema_not_mem_keys_filter (o : JSObj) :
    "schema" ∉ (o.filter (fun p => p.1 ≠ "schema")).map Prod.fst := by
  intro hmem
  rcases List.mem_map.1 hmem with ⟨q, hq, hq1⟩
  rcases List.mem_filter.1 hq with ⟨_, hq2⟩
  simp only [ne_eq, decide_not, Bool.not_eq_true', decide_eq_false_iff_not] at hq2
  exact hq2 hq1

theorem schema_not_mem_keys_objSet (o : JSObj) (k : String) (v : JSVal)
    (hk : k ≠ "schema") (ho : "schema" ∉ o.map Prod.fst) :
    "schema" ∉ (objSet o k v).map Prod.fst := by
  intro hmem
  rcases List.mem_map.1 hmem with ⟨q, hq, hq1⟩
  rcases List.mem_append.1 hq with h1 | h1
  · exact ho (List.mem_map.2 ⟨q, List.mem_of_mem_filter h1, hq1⟩)
  · simp only [List.mem_singleton] at h1
    exact hk (by rw [h1] at hq1; exact hq1)

theorem useSchemaFlag_iff (s : Option JSONSchema) (o : Option ObjectOutput) :
    useSchemaFlag s o = true ↔
      (s.isSome ∧ (o = some ObjectOutput.object ∨ o = some ObjectOutput.array)) := by
  cases s with
  | none => simp [useSchemaFlag]
  | some sv =>
    cases o with
    | none => simp [useSchemaFlag]
    | some ov => cases ov <;> simp [useSchemaFlag]

theorem ai_trace_eq (deps : AIDeps) (inp : AIInput) (dbg : Bool) :
    (ai deps inp dbg).trace = (aiTry deps inp dbg).trace := by
  unfold ai
  cases hb : (aiTry deps inp dbg).body with
  | error e => rfl
  | ok r => rfl

theorem aiTry_violations (deps : AIDeps) (inp : AIInput) (dbg : Bool) (rule : AppliedRules)
    (h1 : deps.applyAllRules inp.provider.provider inp.messages inp.config = Except.ok rule)
    (h2 : rule.rules ≠ []) :
    aiTry deps inp dbg =
      { body := Except.ok (TypedResult.error (ruleViolationError rule.rules))
        trace := [Step.applyAllRulesStep]
        logs := requestLog inp dbg } := by
  have hlen : rule.rules.length > 0 := List.length_pos.mpr h2
  unfold aiTry
  rw [h1]
  dsimp only
  rw [if_pos hlen]

theorem aiTry_toolError (deps : AIDeps) (inp : AIInput) (dbg : Bool)
    (rule : AppliedRules) (adapter : Nat) (lm : JSVal) (err : ChainError)
    (h1 : deps.applyAllRules inp.provider.provider inp.messages inp.config = Except.ok rule)
    (h2 : rule.rules = [])
    (h3 : deps.createProvider rule.messages inp.provider inp.provider.token
      inp.provider.url rule.config = Except.ok (TypedResult.ok adapter))
    (h4 : deps.getLanguageModel adapter inp.provider rule.config
      (jsGet rule.config "model") = Except.ok lm)
    (h5 : deps.buildTools (jsGet rule.config "tools") =
      Except.ok (TypedResult.error err)) :
    aiTry deps inp dbg =
      { body := Except.ok (TypedResult.error err)
        trace := [Step.applyAllRulesStep, Step.createProviderStep,
          Step.getLanguageModelStep, Step.buildToolsStep]
        logs := requestLog inp dbg } := by
  unfold aiTry
  rw [h1]
  dsimp only
  rw [if_neg (by simp [h2])]
  rw [h3]
  dsimp only
  rw [h4]
  dsimp only
  rw [h5]

theorem ai_ok_inv (deps : AIDeps) (inp : AIInput) (dbg : Bool) (obj : JSObj)
    (h : (ai deps inp dbg).result = TypedResult.ok obj) :
    ∃ res : StreamTextResult,
      obj = successObj (if useSchemaFlag inp.schema inp.output then "object" else "text")
        inp.provider.provider res := by
  cases hA : deps.applyAllRules inp.provider.provider inp.messages inp.config with
  | error e =>
    simp only [ai, aiTry, hA, handleAICallAPIError] at h
    simp at h
  | ok rule =>
    cases hr : rule.rules with
    | cons a l =>
      simp only [ai, aiTry, hA, hr] at h
      simp at h
    | nil =>
      cases hB : deps.createProvider rule.messages inp.provider inp.provider.token
          inp.provider.url rule.config with
      | error e =>
        simp only [ai, aiTry, hA, hr, hB, handleAICallAPIError] at h
        simp at h
      | ok trB =>
        cases trB with
        | error err =>
          simp only [ai, aiTry, hA, hr, hB] at h
          simp at h
        | ok adapter =>
          cases hC : deps.getLanguageModel adapter inp.provider rule.config
              (jsGet rule.config "model") with
          | error e =>
            simp only [ai, aiTry, hA, hr, hB, hC, handleAICallAPIError] at h
            simp at h
          | ok lm =>
            cases hD : deps.buildTools (jsGet rule.config "tools") with
            | error e =>
              simp only [ai, aiTry, hA, hr, hB, hC, hD, handleAICallAPIError] at h
              simp at h
            | ok trD =>
              cases trD with
              | error err =>
                simp only [ai, aiTry, hA, hr, hB, hC, hD] at h
                simp at h
              | ok toolSet =>
                cases hE : deps.streamText (streamTextArg rule.config lm inp.prompt
                    rule.messages toolSet inp.hasAbortSignal
                    (useSchemaFlag inp.schema inp.output) inp.schema) with
                | error e =>
                  simp only [ai, aiTry, hA, hr, hB, hC, hD, hE, handleAICallAPIError] at h
                  simp at h
                | ok res =>
                  refine ⟨res, ?_⟩
                  simp only [ai, aiTry, hA, hr, hB, hC, hD, hE] at h
                  simp at h
                  exact h.symm

theorem jsGet_successObj_type (rt pn : String) (r : StreamTextResult) :
    jsGet (successObj rt pn r) "type" = JSVal.str rt := rfl

theorem successObj_keys (rt pn : String) (r : StreamTextResult) :
    (successObj rt pn r).map Prod.fst =
      ["type", "providerName", "fullStream", "text", "reasoning", "usage",
       "toolCalls", "providerMetadata", "sources", "finishReason", "response"] := rfl

theorem str_if_eq_object (u : Bool) :
    (JSVal.str (if u then "object" else "text") = JSVal.str "object") ↔ u = true := by
  cases u <;> simp

theorem str_if_eq_text (u : Bool) :
    (JSVal.str (if u then "object" else "text") = JSVal.str "text") ↔ u = false := by
  cases u <;> simp

theorem aiTry_debug_invariant (deps : AIDeps) (inp : AIInput) (d1 d2 : Bool) :
    (aiTry deps inp d1).body = (aiTry deps inp d2).body ∧
    (aiTry deps inp d1).trace = (aiTry deps inp d2).trace := by
  unfold aiTry
  cases hA : deps.applyAllRules inp.provider.provider inp.messages inp.config with
  | error e => exact ⟨rfl, rfl⟩
  | ok rule =>
    dsimp only
    by_cases hr : rule.rules.length > 0
    · rw [if_pos hr, if_pos hr]
      exact ⟨rfl, rfl⟩
    · rw [if_neg hr, if_neg hr]
      cases hB : deps.createProvider rule.messages inp.provider inp.provider.token
          inp.provider.url rule.config with
      | error e => exact ⟨rfl, rfl⟩
      | ok trB =>
        cases trB with
        | error err => exact ⟨rfl, rfl⟩
        | ok adapter =>
          dsimp only
          cases hC : deps.getLanguageModel adapter inp.provider rule.config
              (jsGet rule.config "model") with
          | error e => exact ⟨rfl, rfl⟩
          | ok lm =>
            dsimp only
            cases hD : deps.buildTools (jsGet rule.config "tools") with
            | error e => exact ⟨rfl, rfl⟩
            | ok trD =>
              cases trD with
              | error err => exact ⟨rfl, rfl⟩
              | ok toolSet =>
                dsimp only
                cases hE : deps.streamText (streamTextArg rule.config lm inp.prompt
                    rule.messages toolSet inp.hasAbortSignal
                    (useSchemaFlag inp.schema inp.output) inp.schema) with
                | error e => exact ⟨rfl, rfl⟩
                | ok res => exact ⟨rfl, rfl⟩

/-! ### The claims -/

/-- C1, counterexample: with a single violation whose message is `boom`,
the returned run-error message is `There are rule violations:` + newline +
`- boom`, which differs from the violations joined by newline each prefixed
`- ` (that would be just `- boom`): the code prepends a header line. -/
theorem ai_violation_message_counterexample :
    (ai violDeps sampleInput false).result =
      TypedResult.error
        { code := RunErrorCodes.aiRunError
          message := "There are rule violations:\n- boom" } ∧
    "There are rule violations:\n- boom" ≠ "- boom" :=
  ⟨rfl, by decide⟩

/-- C1 (amended): when the Rule Engine yields one or more violations, `ai`
returns a run-error whose message is the header `There are rule
violations:` plus a newline, followed by the violations joined by newline,
each prefixed `- `; it never dispatches. -/
theorem ai_violation_message (deps : AIDeps) (inp : AIInput) (dbg : Bool)
    (rule : AppliedRules)
    (h1 : deps.applyAllRules inp.provider.provider inp.messages inp.config = Except.ok rule)
    (h2 : rule.rules ≠ []) :
    (ai deps inp dbg).result =
      TypedResult.error
        { code := RunErrorCodes.aiRunError
          message := "There are rule violations:\n" ++
            String.intercalate "\n" (rule.rules.map (fun r => "- " ++ r.ruleMessage)) } := by
  have hT := aiTry_violations deps inp dbg rule h1 h2
  unfold ai
  rw [hT]
  rfl

theorem ai_violation_message_witness :
    (ai violDeps sampleInput false).result =
      TypedResult.error
        { code := RunErrorCodes.aiRunError
          message := "There are rule violations:\n" ++
            String.intercalate "\n"
              (([{ ruleMessage := "boom" }] : List RuleViolation).map
                (fun r => "- " ++ r.ruleMessage)) } :=
  ai_violation_message violDeps sampleInput false
    { rules := [{ ruleMessage := "boom" }], messages := [], config := sampleConfig }
    rfl (by decide)

/-- C2: the `type` tag of a successful `ai` result is `object` iff an
output schema is present and the output mode is `object` or `array`, and is
`text` otherwise, for every choice of collaborators (provider included). -/
theorem ai_resultType_iff (deps : AIDeps) (inp : AIInput) (dbg : Bool) (obj : JSObj)
    (h : (ai deps inp dbg).result = TypedResult.ok obj) :
    (jsGet obj "type" = JSVal.str "object" ↔
      (inp.schema.isSome ∧ (inp.output = some ObjectOutput.object ∨
        inp.output = some ObjectOutput.array))) ∧
    (jsGet obj "type" = JSVal.str "text" ↔
      ¬(inp.schema.isSome ∧ (inp.output = some ObjectOutput.object ∨
        inp.output = some ObjectOutput.array))) := by
  rcases ai_ok_inv deps inp dbg obj h with ⟨res, rfl⟩
  rw [jsGet_successObj_type]
  constructor
  · rw [str_if_eq_object]
    exact useSchemaFlag_iff inp.schema inp.output
  · rw [str_if_eq_text]
    constructor
    · intro hf hP
      rw [(useSchemaFlag_iff inp.schema inp.output).mpr hP] at hf
      exact absurd hf (by decide)
    · intro hn
      cases hu : useSchemaFlag inp.schema inp.output with
      | false => rfl
      | true => exact absurd ((useSchemaFlag_iff _ _).mp hu) hn

theorem ai_resultType_iff_witness :
    (jsGet (successObj "object" "openai" sampleStream) "type" = JSVal.str "object" ↔
      (sampleInput.schema.isSome ∧ (sampleInput.output = some ObjectOutput.object ∨
        sampleInput.output = some ObjectOutput.array))) ∧
    (jsGet (successObj "object" "openai" sampleStream) "type" = JSVal.str "text" ↔
      ¬(sampleInput.schema.isSome ∧ (sampleInput.output = some ObjectOutput.object ∨
        sampleInput.output = some ObjectOutput.array))) :=
  ai_resultType_iff happyDeps sampleInput false (successObj "object" "openai" sampleStream) rfl

/-- C3: the Error Translator formats an `APICallError` as
`Error: {message} and response body: {responseBody}`, a generic `Error` as
`Unknown error: {message}`, any other thrown value as
`Unknown error: {string form}`, and always uses the run-error code, never
the configuration-error code. -/
theorem handleAICallAPIError_spec :
    (∀ m b : String, (handleAICallAPIError (Thrown.apiCallError m b) : TypedResult JSObj) =
      TypedResult.error
        { code := RunErrorCodes.aiRunError
          message := "Error: " ++ m ++ " and response body: " ++ b }) ∧
    (∀ m : String, (handleAICallAPIError (Thrown.error m) : TypedResult JSObj) =
      TypedResult.error
        { code := RunErrorCodes.aiRunError
          message := "Unknown error: " ++ m }) ∧
    (∀ s : String, (handleAICallAPIError (Thrown.other s) : TypedResult JSObj) =
      TypedResult.error
        { code := RunErrorCodes.aiRunError
          message := "Unknown error: " ++ s }) ∧
    (∀ e : Thrown, (handleAICallAPIErrorChain e).code = RunErrorCodes.aiRunError ∧
      (handleAICallAPIErrorChain e).code ≠ RunErrorCodes.aiProviderConfigError) := by
  exact ⟨fun m b => rfl, fun m => rfl, fun s => rfl,
    fun e => ⟨rfl, fun hh => RunErrorCodes.noConfusion hh⟩⟩

/-- C4: when the Rule Engine yields one or more violations, `ai` returns
with only the Rule Engine invoked: the adapter factory, the tool builder
and the dispatch are never called. -/
theorem ai_violations_no_dispatch (deps : AIDeps) (inp : AIInput) (dbg : Bool)
    (rule : AppliedRules)
    (h1 : deps.applyAllRules inp.provider.provider inp.messages inp.config = Except.ok rule)
    (h2 : rule.rules ≠ []) :
    Step.createProviderStep ∉ (ai deps inp dbg).trace ∧
    Step.buildToolsStep ∉ (ai deps inp dbg).trace ∧
    (∀ arg : JSObj, Step.streamTextStep arg ∉ (ai deps inp dbg).trace) := by
  have htr : (ai deps inp dbg).trace = [Step.applyAllRulesStep] := by
    rw [ai_trace_eq, aiTry_violations deps inp dbg rule h1 h2]
  rw [htr]
  exact ⟨by simp, by simp, fun arg => by simp⟩

theorem ai_violations_no_dispatch_witness :
    Step.createProviderStep ∉ (ai violDeps sampleInput false).trace ∧
    Step.buildToolsStep ∉ (ai violDeps sampleInput false).trace ∧
    Step.streamTextStep [] ∉ (ai violDeps sampleInput false).trace := by
  have h := ai_violations_no_dispatch violDeps sampleInput false
    { rules := [{ ruleMessage := "boom" }], messages := [], config := sampleConfig }
    rfl (by decide)
  exact ⟨h.1, h.2.1, h.2.2 []⟩

/-- C5: when the Tool Builder returns a typed error, `ai` returns that
error verbatim and the dispatch is never invoked. -/
theorem ai_toolError_propagated (deps : AIDeps) (inp : AIInput) (dbg : Bool)
    (rule : AppliedRules) (adapter : Nat) (lm : JSVal) (err : ChainError)
    (h1 : deps.applyAllRules inp.provider.provider inp.messages inp.config = Except.ok rule)
    (h2 : rule.rules = [])
    (h3 : deps.createProvider rule.messages inp.provider inp.provider.token
      inp.provider.url rule.config = Except.ok (TypedResult.ok adapter))
    (h4 : deps.getLanguageModel adapter inp.provider rule.config
      (jsGet rule.config "model") = Except.ok lm)
    (h5 : deps.buildTools (jsGet rule.config "tools") =
      Except.ok (TypedResult.error err)) :
    (ai deps inp dbg).result = TypedResult.error err ∧
    (∀ arg : JSObj, Step.streamTextStep arg ∉ (ai deps inp dbg).trace) := by
  have hT := aiTry_toolError deps inp dbg rule adapter lm err h1 h2 h3 h4 h5
  constructor
  · unfold ai
    rw [hT]
  · intro arg
    rw [ai_trace_eq, hT]
    simp

theorem ai_toolError_propagated_witness :
    (ai toolFailDeps sampleInput false).result =
      TypedResult.error { code := RunErrorCodes.aiRunError, message := "bad tool" } ∧
    Step.streamTextStep [] ∉ (ai toolFailDeps sampleInput false).trace := by
  have h := ai_toolError_propagated toolFailDeps sampleInput false
    { rules := [], messages := [], config := sampleConfig } 0 (JSVal.ext 7)
    { code := RunErrorCodes.aiRunError, message := "bad tool" }
    rfl rfl rfl rfl rfl
  exact ⟨h.1, h.2 []⟩

/-- C6: every thrown value escaping the body of the `try` block is caught
by the single top-level catch and converted into the Error Translator
failure; `ai` (whose return type is total) never re-raises it. -/
theorem ai_catches_thrown (deps : AIDeps) (inp : AIInput) (dbg : Bool) (e : Thrown)
    (h : (aiTry deps inp dbg).body = Except.error e) :
    (ai deps inp dbg).result = handleAICallAPIError e ∧
    (ai deps inp dbg).result = TypedResult.error (handleAICallAPIErrorChain e) := by
  unfold ai
  rw [h]
  exact ⟨rfl, rfl⟩

theorem ai_catches_thrown_witness :
    (ai throwDeps sampleInput false).result =
      handleAICallAPIError (Thrown.apiCallError "M" "B") ∧
    (ai throwDeps sampleInput false).result =
      TypedResult.error (handleAICallAPIErrorChain (Thrown.apiCallError "M" "B")) :=
  ai_catches_thrown throwDeps sampleInput false (Thrown.apiCallError "M" "B") rfl

/-- C7, counterexample: the config field `model` (value `gpt-4`) is not
passed through unchanged to the dispatch call: the object handed to
`streamText` carries the resolved language model (here the opaque `ext 7`)
under the `model` key. -/
theorem streamText_model_overridden_counterexample :
    jsGet sampleConfig "model" = JSVal.str "gpt-4" ∧
    Step.streamTextStep (streamTextArg sampleConfig (JSVal.ext 7) none []
      (JSVal.ext 8) false true (some { id := 1 })) ∈ (ai happyDeps sampleInput false).trace ∧
    jsGet (streamTextArg sampleConfig (JSVal.ext 7) none [] (JSVal.ext 8) false true
      (some { id := 1 })) "model" = JSVal.ext 7 ∧
    JSVal.ext 7 ≠ JSVal.str "gpt-4" := by
  refine ⟨rfl, ?_, rfl, by decide⟩
  decide

/-- C7 (amended): the object handed to `streamText` carries every field of
the rule-transformed config except `schema` (excluded from the spread and
never re-added); fields outside the explicitly overridden keys pass
through unchanged, `providerOptions` is re-set to its own config value,
and `model` and `tools` are overridden with the resolved language model
and the built tool set. -/
theorem streamTextArg_spread (config : JSObj) (lm : JSVal)
    (prompt : Option String) (msgs : List Message) (ts : JSVal) (ab u : Bool)
    (sch : Option JSONSchema) :
    "schema" ∉ (streamTextArg config lm prompt msgs ts ab u sch).map Prod.fst ∧
    (∀ k, k ∉ overriddenKeys →
      jsGet (streamTextArg config lm prompt msgs ts ab u sch) k = jsGet config k) ∧
    jsGet (streamTextArg config lm prompt msgs ts ab u sch) "providerOptions" =
      jsGet config "providerOptions" ∧
    jsGet (streamTextArg config lm prompt msgs ts ab u sch) "model" = lm ∧
    jsGet (streamTextArg config lm prompt msgs ts ab u sch) "tools" = ts := by
  unfold streamTextArg
  refine ⟨?_, ?_, ?_, ?_, ?_⟩
  · apply schema_not_mem_keys_objSet _ _ _ (by decide)
    apply schema_not_mem_keys_objSet _ _ _ (by decide)
    apply schema_not_mem_keys_objSet _ _ _ (by decide)
    apply schema_not_mem_keys_objSet _ _ _ (by decide)
    apply schema_not_mem_keys_objSet _ _ _ (by decide)
    apply schema_not_mem_keys_objSet _ _ _ (by decide)
    apply schema_not_mem_keys_objSet _ _ _ (by decide)
    apply schema_not_mem_keys_objSet _ _ _ (by decide)
    apply schema_not_mem_keys_objSet _ _ _ (by decide)
    exact schema_not_mem_keys_filter config
  · intro k hk
    simp only [overriddenKeys, List.mem_cons, List.not_mem_nil, or_false, not_or] at hk
    obtain ⟨n1, n2, n3, n4, n5, n6, n7, n8, n9, n10⟩ := hk
    rw [jsGet_objSet_other _ _ _ _ n10, jsGet_objSet_other _ _ _ _ n9,
        jsGet_objSet_other _ _ _ _ n8, jsGet_objSet_other _ _ _ _ n7,
        jsGet_objSet_other _ _ _ _ n6, jsGet_objSet_other _ _ _ _ n5,
        jsGet_objSet_other _ _ _ _ n4, jsGet_objSet_other _ _ _ _ n3,
        jsGet_objSet_other _ _ _ _ n2, jsGet_filter_schema _ _ n1]
  · rw [jsGet_objSet_other _ _ _ _ (by decide), jsGet_objSet_other _ _ _ _ (by decide),
        jsGet_objSet_other _ _ _ _ (by decide)]
    exact jsGet_objSet_self _ _ _
  · rw [jsGet_objSet_other _ _ _ _ (by decide), jsGet_objSet_other _ _ _ _ (by decide),
        jsGet_objSet_other _ _ _ _ (by decide), jsGet_objSet_other _ _ _ _ (by decide),
        jsGet_objSet_other _ _ _ _ (by decide), jsGet_objSet_other _ _ _ _ (by decide),
        jsGet_objSet_other _ _ _ _ (by decide), jsGet_objSet_other _ _ _ _ (by decide)]
    exact jsGet_objSet_self _ _ _
  · rw [jsGet_objSet_other _ _ _ _ (by decide), jsGet_objSet_other _ _ _ _ (by decide),
        jsGet_objSet_other _ _ _ _ (by decide), jsGet_objSet_other _ _ _ _ (by decide),
        jsGet_objSet_other _ _ _ _ (by decide)]
    exact jsGet_objSet_self _ _ _

theorem streamTextArg_spread_witness :
    jsGet (streamTextArg sampleConfig (JSVal.ext 7) none [] (JSVal.ext 8) false true
      (some { id := 1 })) "temperature" = jsGet sampleConfig "temperature" ∧
    "schema" ∉ (streamTextArg sampleConfig (JSVal.ext 7) none [] (JSVal.ext 8) false true
      (some { id := 1 })).map Prod.fst := by
  have h := streamTextArg_spread sampleConfig (JSVal.ext 7) none []
    (JSVal.ext 8) false true (some { id := 1 })
  exact ⟨h.2.1 "temperature" (by decide), h.1⟩

/-- C8: the diagnostic flag alters neither the returned typed result nor
the collaborators invoked (only the emitted log). -/
theorem ai_debug_flag_no_effect (deps : AIDeps) (inp : AIInput) :
    (ai deps inp true).result = (ai deps inp false).result ∧
    (ai deps inp true).trace = (ai deps inp false).trace := by
  obtain ⟨hb, ht⟩ := aiTry_debug_invariant deps inp true false
  unfold ai
  rw [hb, ht]
  cases hc : (aiTry deps inp false).body with
  | error e => exact ⟨rfl, rfl⟩
  | ok r => exact ⟨rfl, rfl⟩

/-- C9, counterexample: the logged representation of content parts is not
bounded: an image part whose string data starts with `http` is logged in
full, so its logged size exceeds every candidate bound. -/
theorem image_url_log_unbounded_counterexample :
    ¬ ∃ B : Nat, ∀ c : ContentPart, loggedPartSize (logContentPart c) ≤ B := by
  rintro ⟨B, hB⟩
  have h := hB (ContentPart.image (ImageData.strData
    (('h' :: 't' :: 't' :: 'p' :: []) ++ List.replicate (B + 1) 'a')))
  have hstart : jsStartsWith (('h' :: 't' :: 't' :: 'p' :: []) ++ List.replicate (B + 1) 'a')
      ('h' :: 't' :: 't' :: 'p' :: []) = true := rfl
  simp only [logContentPart, hstart, Bool.true_or, if_true, loggedPartSize] at h
  simp only [List.length_append, List.length_cons, List.length_nil,
    List.length_replicate] at h
  omega

/-- C9 (amended): truncation bounds the logged size of text parts and of
image string data that is not a URL or data URI (at 103 characters);
binary image data logs a fixed placeholder; file parts log only mime type
and size, independent of the data length; but image string data starting
with `http` (or `data:`) is logged in full, unbounded. -/
theorem debug_truncation_by_part_kind :
    (∀ t : JStr, loggedPartSize (logContentPart (ContentPart.text t)) ≤ 103) ∧
    (∀ s : JStr, jsStartsWith s ('h' :: 't' :: 't' :: 'p' :: []) = false →
      jsStartsWith s ('d' :: 'a' :: 't' :: 'a' :: ':' :: []) = false →
      loggedPartSize (logContentPart (ContentPart.image (ImageData.strData s))) ≤ 103) ∧
    (∀ n : Nat, loggedPartSize (logContentPart (ContentPart.image (ImageData.buffer n))) = 11) ∧
    (∀ n : Nat, loggedPartSize (logContentPart (ContentPart.image (ImageData.uint8 n))) = 11) ∧
    (∀ (len : Nat) (m : JStr),
      loggedPartSize (logContentPart (ContentPart.file len m)) = m.length) ∧
    (∀ s : JStr, jsStartsWith s ('h' :: 't' :: 't' :: 'p' :: []) = true →
      logContentPart (ContentPart.image (ImageData.strData s)) =
        LoggedPart.image (!s.isEmpty) true s.length s) := by
  refine ⟨?_, ?_, fun n => rfl, fun n => rfl, fun len m => rfl, ?_⟩
  · intro t
    simp only [logContentPart, loggedPartSize, jsTruncate100, List.length_append]
    have h1 : (t.take 100).length ≤ 100 := by
      rw [List.length_take]; exact min_le_left _ _
    have h2 : (if t.length > 100 then ['.', '.', '.'] else ([] : JStr)).length ≤ 3 := by
      split <;> simp
    omega
  · intro s hs1 hs2
    simp [logContentPart, loggedPartSize, hs1, hs2]
  · intro s hs
    simp only [logContentPart, hs, Bool.true_or, if_true]

theorem debug_truncation_by_part_kind_witness :
    loggedPartSize (logContentPart (ContentPart.image (ImageData.strData ['x']))) ≤ 103 ∧
    logContentPart (ContentPart.image (ImageData.strData
      ('h' :: 't' :: 't' :: 'p' :: []))) =
      LoggedPart.image (!(('h' :: 't' :: 't' :: 'p' :: []) : JStr).isEmpty) true
      (('h' :: 't' :: 't' :: 'p' :: []) : JStr).length ('h' :: 't' :: 't' :: 'p' :: []) := by
  have h := debug_truncation_by_part_kind
  exact ⟨h.2.1 ['x'] rfl rfl, h.2.2.2.2.2 _ rfl⟩

/-- C10: the success payload of `ai` has exactly the eleven fields `type`,
`providerName`, `fullStream`, `text`, `reasoning`, `usage`, `toolCalls`,
`providerMetadata`, `sources`, `finishReason`, `response`, and never an
`object` field. -/
theorem ai_success_fields_exact (deps : AIDeps) (inp : AIInput) (dbg : Bool) (obj : JSObj)
    (h : (ai deps inp dbg).result = TypedResult.ok obj) :
    obj.map Prod.fst = ["type", "providerName", "fullStream", "text", "reasoning",
      "usage", "toolCalls", "providerMetadata", "sources", "finishReason", "response"] ∧
    "object" ∉ obj.map Prod.fst := by
  rcases ai_ok_inv deps inp dbg obj h with ⟨res, rfl⟩
  refine ⟨successObj_keys _ _ _, ?_⟩
  rw [successObj_keys]
  decide

theorem ai_success_fields_exact_witness :
    (successObj "object" "openai" sampleStream).map Prod.fst =
      ["type", "providerName", "fullStream", "text", "reasoning",
       "usage", "toolCalls", "providerMetadata", "sources", "finishReason", "response"] ∧
    "object" ∉ (successObj "object" "openai" sampleStream).map Prod.fst :=
  ai_success_fields_exact happyDeps sampleInput false
    (successObj "object" "openai" sampleStream) rfl

end LatitudeAI
